import Mathlib

/- Shallow embedding of the storefront cart and pricing engine from
src/main.js together with the product catalog from src/products.mjs.
JavaScript numbers are modelled as exact rationals, wall-clock instants as
(day-of-week, hours, minutes) triples, and the mutable heap (the global
`cart` array aliasing catalog objects) as explicit state passing over an
`AppState` record. -/

/-- image metadata record of a catalog product (products.mjs). -/
structure Img where
  src : String
  width : Nat
  height : Nat
  alt : String
deriving DecidableEq

/-- a product record from products.mjs.  In JavaScript the `amount` property
is absent until `addProductToCart` first writes it onto the (shared) object;
the `Option` models presence of that property. -/
structure Product where
  id : Int
  name : String
  price : ℚ
  category : String
  img : Img
  amount : Option ℚ := none
deriving DecidableEq

/-- catalog entry with id 11 (products.mjs). -/
def riceCookie : Product :=
  { id := 11, name := "Rice Cookie", price := 29, category := "snacks",
    img := { src := "./images/riceCookie.webp", width := 200, height := 200,
             alt := "A rice cookie." } }

/-- catalog entry with id 12 (products.mjs). -/
def mochi : Product :=
  { id := 12, name := "Mochi", price := 49, category := "snacks",
    img := { src := "./images/mochi.webp", width := 200, height := 200,
             alt := "Three mochi\x27s on a plater." } }

/-- catalog entry with id 13 (products.mjs). -/
def stickyRiceWithMango : Product :=
  { id := 13, name := "Sticky rice with Mango", price := 79, category := "snacks",
    img := { src := "./images/stickyRiceWithMango.webp", width := 200, height := 200,
             alt := "A glasscup with stickyrice and mango-bites." } }

/-- catalog entry with id 14 (products.mjs). -/
def vietnameseSpringRoll : Product :=
  { id := 14, name := "Vietnamese spring roll", price := 99, category := "snacks",
    img := { src := "./images/vietnameseSpringRolls.webp", width := 200, height := 200,
             alt := "A plater with four springrolls and a dipsauce." } }

/-- catalog entry with id 21 (products.mjs). -/
def vietnameseFriedRice : Product :=
  { id := 21, name := "Vietnamese Fried Rice", price := 149, category := "food",
    img := { src := "./images/vietnameseFriedRice.webp", width := 200, height := 200,
             alt := "A plater with fried rice and vegtables and shrimp-crackers." } }

/-- catalog entry with id 22 (products.mjs). -/
def vietnameseNoodleSoupWithBeef : Product :=
  { id := 22, name := "Vietnamese noodle soup with beef", price := 179, category := "food",
    img := { src := "./images/vietnameseNoodleSoupWithBeef.webp", width := 200, height := 200,
             alt := "A bowl of noodle soup with leeks and meet on top." } }

/-- catalog entry with id 23 (products.mjs); the trailing space in the name is
in the source. -/
def riceNoodlesWithFriedSpringRolls : Product :=
  { id := 23, name := "Rice noodles with fried spring rolls ", price := 179, category := "food",
    img := { src := "./images/riceNoodlesWithFriedSpringRolls.webp", width := 200, height := 200,
             alt := "Six different bowls containing vegetables, chillis, rice noodles, fried spring rolls in a dipsauce and fresh garlic." } }

/-- catalog entry with id 24 (products.mjs). -/
def brokenRiceWithPork : Product :=
  { id := 24, name := "Broken rice with pork", price := 129, category := "food",
    img := { src := "./images/brokenRiceWithPork.webp", width := 200, height := 200,
             alt := "Broken rice with bits of marinaded pork." } }

/-- catalog entry with id 31 (products.mjs). -/
def icedPeachTea : Product :=
  { id := 31, name := "Iced Peach Tea", price := 29, category := "drinks",
    img := { src := "./images/icedPeachTea.webp", width := 200, height := 200,
             alt := "A glass of iced tea with peach bits on top." } }

/-- catalog entry with id 32 (products.mjs). -/
def vietnameseDripCoffee : Product :=
  { id := 32, name := "Vietnamese Drip-Coffee", price := 49, category := "drinks",
    img := { src := "./images/vietnameseDripCoffee.webp", width := 200, height := 200,
             alt := "A glass with vietnamese coffe and a drip-coffee accescory on the side." } }

/-- catalog entry with id 33 (products.mjs). -/
def strawberryLemonade : Product :=
  { id := 33, name := "Strawberry Lemonade", price := 59, category := "drinks",
    img := { src := "./images/strawberryLemonade.webp", width := 200, height := 200,
             alt := "A glass of lemonade with a pinkish colour due to the added strawberry." } }

/-- catalog entry with id 34 (products.mjs). -/
def mojito : Product :=
  { id := 34, name := "Mojito (Non-Alcoholic)", price := 59, category := "drinks",
    img := { src := "./images/mojito(Non-Alcoholic).webp", width := 200, height := 200,
             alt := "A glass of non-alcoholic mojito with some fresh mints on top." } }

/-- the catalog array exported by products.mjs, in source order. -/
def products : List Product :=
  [riceCookie, mochi, stickyRiceWithMango, vietnameseSpringRoll,
   vietnameseFriedRice, vietnameseNoodleSoupWithBeef,
   riceNoodlesWithFriedSpringRolls, brokenRiceWithPork,
   icedPeachTea, vietnameseDripCoffee, strawberryLemonade, mojito]

/-- wall-clock reading of a JavaScript `Date`: `day` is `getDay()`
(0 = Sunday, …, 5 = Friday, 6 = Saturday), together with `getHours()` and
`getMinutes()`. -/
structure JsDate where
  day : Nat
  hours : Nat
  minutes : Nat
deriving DecidableEq

/-- main.js `calculateProductPrice(basePrice)`.  The source reads
`new Date()` inside the function; here that clock reading is the explicit
`now` argument (see `updateCartTotalsClock` for how each call site draws
its reading). -/
def calculateProductPrice (basePrice : ℚ) (now : JsDate) : ℚ :=
  let currentTimeInMinutes := now.hours * 60 + now.minutes
  let fridayStart : Bool := now.day == 5 && decide (900 ≤ currentTimeInMinutes)
  let saturday : Bool := now.day == 6
  let sundayToMondayNight : Bool :=
    (now.day == 0 || now.day == 1) && decide (currentTimeInMinutes < 180)
  let isWeekendSurcharge := fridayStart || saturday || sundayToMondayNight
  if isWeekendSurcharge then basePrice * (23 / 20) else basePrice

/-- result record returned by main.js `applyBulkDiscount`. -/
structure DiscountResult where
  price : ℚ
  discountApplied : Bool
  discountPercentage : ℚ
deriving DecidableEq

/-- main.js `applyBulkDiscount(quantity, basePrice)` with
`BULK_THRESHOLD = 10`. -/
def applyBulkDiscount (quantity : ℚ) (basePrice : ℚ) : DiscountResult :=
  if 10 ≤ quantity then
    { price := basePrice * (9 / 10), discountApplied := true, discountPercentage := 10 }
  else
    { price := basePrice, discountApplied := false, discountPercentage := 0 }

/-- main.js `isInvoicePaymentAllowed(totalAmount)` with `INVOICE_LIMIT = 800`. -/
def isInvoicePaymentAllowed (totalAmount : ℚ) : Bool :=
  decide (totalAmount ≤ 800)

/-- rounding of a number to two decimals, as produced by `toFixed(2)` and
read back by `parseFloat` in `handlePaymentMethodToggle` (ties round to the
larger candidate, which is what `round` does). -/
def toFixed2 (q : ℚ) : ℚ :=
  ((round (q * 100) : ℤ) : ℚ) / 100

/-- the `amount` a cart entry carries; cart entries always have the property
set (it is written on first add), so the default 0 is never reached from the
operations below. -/
def amt (p : Product) : ℚ :=
  p.amount.getD 0

/-- the per-category quantity tally `categoryCount` built at the top of
main.js `updateCartTotals`, read back at a category key. -/
def categoryCount (cart : List Product) (c : String) : ℚ :=
  (cart.map (fun p => if p.category = c then amt p else 0)).sum

/-- `itemCount` of main.js `updateCartTotals`:
`cart.reduce((sum, product) => sum + product.amount, 0)`. -/
def itemCount (cart : List Product) : ℚ :=
  (cart.map amt).sum

/-- the pricing loop of main.js `updateCartTotals` (lines 388-403): for the
line at position `i` it calls `calculateProductPrice`, whose `new Date()` is
the `i`-th clock reading, applies `applyBulkDiscount` with the line's
category tally, and accumulates the cart total and the bulk-discount flag. -/
def cartLoop (clock : Nat → JsDate) (cats : String → ℚ) :
    List Product → Nat → ℚ × Bool
  | [], _ => (0, false)
  | p :: rest, i =>
    let priceWithSurcharge := calculateProductPrice p.price (clock i)
    let discountResult := applyBulkDiscount (cats p.category) priceWithSurcharge
    let productSum := discountResult.price * amt p
    let restResult := cartLoop clock cats rest (i + 1)
    (productSum + restResult.1, discountResult.discountApplied || restResult.2)

/-- the quantities main.js `updateCartTotals` computes and displays. -/
structure PricingResult where
  cartTotal : ℚ
  bulkDiscountApplied : Bool
  discountAmount : ℚ
  totalAfterDiscount : ℚ
  shippingCost : ℚ
  finalTotal : ℚ
deriving DecidableEq

/-- main.js `updateCartTotals` with its implicit clock made explicit: the
function performs one `new Date()` call per cart line (inside
`calculateProductPrice`) and one more for the Monday-discount check
(line 407); the `k`-th call returns `clock k`. -/
def updateCartTotalsClock (cart : List Product) (clock : Nat → JsDate) : PricingResult :=
  let r := cartLoop clock (categoryCount cart) cart 0
  let cartTotal := r.1
  let bulkDiscountApplied := r.2
  let date := clock cart.length
  let discountAmount := if date.day = 1 ∧ date.hours < 10 then cartTotal * (1 / 10) else 0
  let totalAfterDiscount := cartTotal - discountAmount
  let shippingCost :=
    if 15 < itemCount cart then 0
    else if 0 < itemCount cart then 25 + (1 / 10) * totalAfterDiscount
    else 0
  { cartTotal := cartTotal, bulkDiscountApplied := bulkDiscountApplied,
    discountAmount := discountAmount, totalAfterDiscount := totalAfterDiscount,
    shippingCost := shippingCost, finalTotal := totalAfterDiscount + shippingCost }

/-- main.js `updateCartTotals` run while the wall clock stands still at
`now`, i.e. every implicit `new Date()` returns the same reading. -/
def updateCartTotals (cart : List Product) (now : JsDate) : PricingResult :=
  updateCartTotalsClock cart (fun _ => now)

/-- the invoice gate of `handlePaymentMethodToggle`: it feeds
`parseFloat(cartTotalChange.innerHTML)`, i.e. the displayed total rendered
with `toFixed(2)`, into `isInvoicePaymentAllowed`. -/
def invoiceOptionAllowed (cart : List Product) (now : JsDate) : Bool :=
  isInvoicePaymentAllowed (toFixed2 (updateCartTotals cart now).finalTotal)

/- The cart store.  In main.js the global `cart` array holds references to
the very objects of the `products` catalog array, so mutating a cart entry
mutates the catalog record.  The state carries the catalog array (whose
objects may have been mutated) and the cart as the list of ids of the
aliased objects, in push order; catalog ids are unique, so the id determines
the aliased object. -/

/-- program state: the catalog array and the global `cart` array (as the
ids of the catalog objects it aliases, in insertion order). -/
structure AppState where
  products : List Product
  cart : List Int
deriving DecidableEq

/-- write to the `amount` property of the catalog object with id `pid`
(state-passing rendering of a JavaScript in-place mutation). -/
def setAmount (ps : List Product) (pid : Int) (f : Option ℚ → Option ℚ) : List Product :=
  ps.map (fun p => if p.id = pid then { p with amount := f p.amount } else p)

/-- the `amount` property of the catalog object with id `pid`, if the object
exists and the property has been written. -/
def amountOf (ps : List Product) (pid : Int) : Option ℚ :=
  (ps.find? (fun p => p.id == pid)).bind Product.amount

/-- main.js `addProductToCart` (lines 277-305), on the cart-store part of
its behavior: look the id up in the catalog (`products.find`), return
unchanged if missing or if the requested amount is `<= 0`; otherwise either
bump the existing cart entry (`cart[index].amount += amount`) or write the
amount onto the catalog object and push it (`product.amount = amount;
cart.push(product)`). -/
def addProductToCart (s : AppState) (clickedBtnId : Int) (amount : ℚ) : AppState :=
  match s.products.find? (fun p => p.id == clickedBtnId) with
  | none => s
  | some _ =>
    if amount ≤ 0 then s
    else if clickedBtnId ∈ s.cart then
      { s with products := setAmount s.products clickedBtnId (fun a => some (a.getD 0 + amount)) }
    else
      { products := setAmount s.products clickedBtnId (fun _ => some amount),
        cart := s.cart ++ [clickedBtnId] }

/-- main.js `increaseProductFromCart`: `cart[rowId]` (the raw
`Number(dataset.id)` is used as an array index), and if an entry is there,
`product.amount += 1`. -/
def increaseProductFromCart (s : AppState) (rowId : Nat) : AppState :=
  match s.cart[rowId]? with
  | none => s
  | some pid => { s with products := setAmount s.products pid (fun a => some (a.getD 0 + 1)) }

/-- main.js `decreaseProductFromCart`: `cart[rowId]`, and if an entry is
there and `product.amount > 0`, `product.amount -= 1`. -/
def decreaseProductFromCart (s : AppState) (rowId : Nat) : AppState :=
  match s.cart[rowId]? with
  | none => s
  | some pid =>
    if 0 < (amountOf s.products pid).getD 0 then
      { s with products := setAmount s.products pid (fun a => some (a.getD 0 - 1)) }
    else s

/-- main.js `handleDeleteCartItem`: `cart.splice(rowId, 1)`. -/
def handleDeleteCartItem (s : AppState) (rowId : Nat) : AppState :=
  { s with cart := s.cart.eraseIdx rowId }

/-- one user intent on the cart store, with the argument the corresponding
main.js handler receives. -/
inductive CartOp where
  | add (pid : Int) (amount : ℚ)
  | inc (rowId : Nat)
  | dec (rowId : Nat)
  | del (rowId : Nat)
deriving DecidableEq

/-- dispatch one operation. -/
def applyOp (s : AppState) : CartOp → AppState
  | CartOp.add pid q => addProductToCart s pid q
  | CartOp.inc r => increaseProductFromCart s r
  | CartOp.dec r => decreaseProductFromCart s r
  | CartOp.del r => handleDeleteCartItem s r

/-- run a sequence of operations. -/
def runOps (s : AppState) (ops : List CartOp) : AppState :=
  ops.foldl applyOp s

/-- startup state: the catalog as loaded, empty cart. -/
def initState : AppState :=
  { products := products, cart := [] }

/-- does the operation, if it is an add, carry an integral quantity?  The
UI only ever passes integers (the listing counter), but `addProductToCart`
itself never checks. -/
def opIntegral : CartOp → Bool
  | CartOp.add _ q => q.den == 1
  | _ => true

/-- the projection of a product record onto the fields the catalog declares
(everything except the `amount` property the cart code writes). -/
def coreFields (p : Product) : Int × String × ℚ × String × Img :=
  (p.id, p.name, p.price, p.category, p.img)

/-- a catalog record with the cart quantity property written, for building
concrete cart-line lists in tests. -/
def withAmount (p : Product) (q : ℚ) : Product :=
  { p with amount := some q }

/-- a weekday reading with no surcharge and no Monday discount
(Tuesday 12:00). -/
def tuesdayNoon : JsDate := ⟨2, 12, 0⟩

/-- concrete cart with 15 items in one line. -/
def cart15 : List Product := [withAmount riceCookie 15]

/-- concrete cart whose grand total is exactly 800.00: 8 + 1 snacks,
9 drinks, 2 food items (every category under the bulk threshold), 20 items
in all, so shipping is free and the total is 8·29 + 49 + 9·29 + 2·129 = 800. -/
def cart800 : List Product :=
  [withAmount riceCookie 8, withAmount mochi 1,
   withAmount icedPeachTea 9, withAmount brokenRiceWithPork 2]

/-- one-line cart used for the clock-dependence counterexample. -/
def oneLineCart : List Product := [withAmount riceCookie 1]

/-- a clock that stands still at Monday 09:59. -/
def clockStill : Nat → JsDate := fun _ => ⟨1, 9, 59⟩

/-- a clock that reads Monday 09:59 on the first call and Monday 10:00
afterwards: the minute ticks over between the per-line read and the
Monday-discount read. -/
def clockTicks : Nat → JsDate := fun i => if i = 0 then ⟨1, 9, 59⟩ else ⟨1, 10, 0⟩

/-- two clocks that agree on every reading the computation on the empty cart
performs (only reading 0) but differ later. -/
def clockA : Nat → JsDate := fun _ => tuesdayNoon

/-- see `clockA`. -/
def clockB : Nat → JsDate := fun i => if i = 0 then tuesdayNoon else ⟨4, 8, 30⟩

/-- invariant of the cart store: every id in the cart names a catalog object
whose `amount` property is set to a nonnegative integral value. -/
def CartInv (s : AppState) : Prop :=
  ∀ pid ∈ s.cart, ∃ q : ℚ,
    amountOf s.products pid = some q ∧ 0 ≤ q ∧ q.den = 1

/- Helper lemmas. -/

/-- the `cartTotal` the totals routine computes is the first component of
the pricing loop. -/
lemma updateCartTotals_cartTotal (cart : List Product) (now : JsDate) :
    (updateCartTotals cart now).cartTotal =
      (cartLoop (fun _ => now) (categoryCount cart) cart 0).1 := rfl

/-- the bulk-discount flag is the second component of the pricing loop. -/
lemma updateCartTotals_bulk (cart : List Product) (now : JsDate) :
    (updateCartTotals cart now).bulkDiscountApplied =
      (cartLoop (fun _ => now) (categoryCount cart) cart 0).2 := rfl

/-- the Monday-discount amount, by unfolding. -/
lemma updateCartTotals_discountAmount (cart : List Product) (now : JsDate) :
    (updateCartTotals cart now).discountAmount =
      if now.day = 1 ∧ now.hours < 10
        then (updateCartTotals cart now).cartTotal * (1 / 10) else 0 := rfl

/-- the total after the Monday discount, by unfolding. -/
lemma updateCartTotals_totalAfterDiscount (cart : List Product) (now : JsDate) :
    (updateCartTotals cart now).totalAfterDiscount =
      (updateCartTotals cart now).cartTotal -
        (updateCartTotals cart now).discountAmount := rfl

/-- the shipping cost, by unfolding. -/
lemma updateCartTotals_shippingCost (cart : List Product) (now : JsDate) :
    (updateCartTotals cart now).shippingCost =
      if 15 < itemCount cart then 0
      else if 0 < itemCount cart
        then 25 + (1 / 10) * (updateCartTotals cart now).totalAfterDiscount
      else 0 := rfl

/-- the grand total, by unfolding. -/
lemma updateCartTotals_finalTotal (cart : List Product) (now : JsDate) :
    (updateCartTotals cart now).finalTotal =
      (updateCartTotals cart now).totalAfterDiscount +
        (updateCartTotals cart now).shippingCost := rfl

/-- price component of `applyBulkDiscount`. -/
lemma applyBulkDiscount_price (q b : ℚ) :
    (applyBulkDiscount q b).price = if 10 ≤ q then b * (9 / 10) else b := by
  unfold applyBulkDiscount
  split <;> rfl

/-- flag component of `applyBulkDiscount`. -/
lemma applyBulkDiscount_applied (q b : ℚ) :
    (applyBulkDiscount q b).discountApplied = decide (10 ≤ q) := by
  unfold applyBulkDiscount
  split <;> simp_all

/-- under a constant clock the pricing loop computes the sum of the
per-line discounted prices times quantities. -/
lemma cartLoop_const_fst (now : JsDate) (cats : String → ℚ) (l : List Product) (i : Nat) :
    (cartLoop (fun _ => now) cats l i).1 =
      (l.map (fun p =>
        (applyBulkDiscount (cats p.category) (calculateProductPrice p.price now)).price
          * amt p)).sum := by
  induction l generalizing i with
  | nil => rfl
  | cons p rest ih => simp [cartLoop, ih (i + 1)]

/-- under a constant clock the bulk flag is set exactly when some line got
the discount. -/
lemma cartLoop_const_snd (now : JsDate) (cats : String → ℚ) (l : List Product) (i : Nat) :
    (cartLoop (fun _ => now) cats l i).2 =
      l.any (fun p =>
        (applyBulkDiscount (cats p.category) (calculateProductPrice p.price now)).discountApplied) := by
  induction l generalizing i with
  | nil => rfl
  | cons p rest ih => simp [cartLoop, ih (i + 1)]

/-- claim C1: per cart line the effective unit price is the weekend-surcharged
base price, times 9/10 exactly when the aggregate quantity of the line's
category over the whole cart is at least 10; the cart total is the sum of
effective price times quantity over the lines, and the bulk-discount flag is
set exactly when some line's category aggregate reaches 10 (so no flag when
every aggregate is below 10, and an aggregate of exactly 10 gets it). -/
theorem c1_bulk_discount_uses_category_aggregate (cart : List Product) (now : JsDate) :
    (updateCartTotals cart now).cartTotal =
      (cart.map (fun p =>
        (if 10 ≤ categoryCount cart p.category
          then calculateProductPrice p.price now * (9 / 10)
          else calculateProductPrice p.price now) * amt p)).sum
    ∧ (updateCartTotals cart now).bulkDiscountApplied =
        cart.any (fun p => decide (10 ≤ categoryCount cart p.category)) := by
  constructor
  · rw [updateCartTotals_cartTotal, cartLoop_const_fst]
    have hfun : (fun p : Product =>
        (applyBulkDiscount (categoryCount cart p.category)
          (calculateProductPrice p.price now)).price * amt p)
        = (fun p : Product =>
          (if 10 ≤ categoryCount cart p.category
            then calculateProductPrice p.price now * (9 / 10)
            else calculateProductPrice p.price now) * amt p) := by
      funext p
      rw [applyBulkDiscount_price]
    rw [hfun]
  · rw [updateCartTotals_bulk, cartLoop_const_snd]
    have hfun : (fun p : Product =>
        (applyBulkDiscount (categoryCount cart p.category)
          (calculateProductPrice p.price now)).discountApplied)
        = (fun p : Product => decide (10 ≤ categoryCount cart p.category)) := by
      funext p
      rw [applyBulkDiscount_applied]
    rw [hfun]

/-- claim C2: the 15% surcharge multiplier applies exactly on
(Friday with time at or after 15:00) or Saturday or (Sunday or Monday
before 03:00), in wall-clock terms; boundary checks at Friday 14:59,
Friday 15:00, Monday 02:59 and Monday 03:00. -/
theorem c2_weekend_surcharge_window (basePrice : ℚ) (now : JsDate)
    (hm : now.minutes < 60) :
    (calculateProductPrice basePrice now =
      if (now.day = 5 ∧ 15 ≤ now.hours) ∨ now.day = 6 ∨
          ((now.day = 0 ∨ now.day = 1) ∧ now.hours < 3)
        then basePrice * (23 / 20) else basePrice)
    ∧ calculateProductPrice basePrice ⟨5, 14, 59⟩ = basePrice
    ∧ calculateProductPrice basePrice ⟨5, 15, 0⟩ = basePrice * (23 / 20)
    ∧ calculateProductPrice basePrice ⟨1, 2, 59⟩ = basePrice * (23 / 20)
    ∧ calculateProductPrice basePrice ⟨1, 3, 0⟩ = basePrice := by
  refine ⟨?_, rfl, rfl, rfl, rfl⟩
  simp only [calculateProductPrice]
  refine if_congr ?_ rfl rfl
  simp only [Bool.or_eq_true, Bool.and_eq_true, beq_iff_eq, decide_eq_true_eq]
  constructor <;> intro h <;> omega

/-- witness for C2 at Friday 15:00. -/
theorem c2_weekend_surcharge_window_instance :
    calculateProductPrice 100 ⟨5, 15, 0⟩ = 100 * (23 / 20) :=
  (c2_weekend_surcharge_window 100 ⟨5, 15, 0⟩ (by norm_num)).2.2.1

/-- claim C3: the Monday discount is 10% of the (post surcharge-and-bulk)
cart total exactly when the day is Monday and the hour is below 10, and 0
otherwise; at Monday 09:59 it applies, at Monday 10:00 and on any other
weekday it does not. -/
theorem c3_monday_discount_rule (cart : List Product) (now : JsDate) :
    ((updateCartTotals cart now).discountAmount =
      if now.day = 1 ∧ now.hours < 10
        then (updateCartTotals cart now).cartTotal * (1 / 10) else 0)
    ∧ (updateCartTotals cart now).totalAfterDiscount =
        (updateCartTotals cart now).cartTotal -
          (updateCartTotals cart now).discountAmount
    ∧ (updateCartTotals cart ⟨1, 9, 59⟩).discountAmount =
        (updateCartTotals cart ⟨1, 9, 59⟩).cartTotal * (1 / 10)
    ∧ (updateCartTotals cart ⟨1, 10, 0⟩).discountAmount = 0
    ∧ (now.day ≠ 1 → (updateCartTotals cart now).discountAmount = 0) := by
  refine ⟨rfl, rfl, ?_, ?_, ?_⟩
  · rw [updateCartTotals_discountAmount]
    norm_num
  · rw [updateCartTotals_discountAmount]
    norm_num
  · intro h
    rw [updateCartTotals_discountAmount, if_neg (fun hc => h hc.1)]

/-- witness for C3 on a Tuesday. -/
theorem c3_monday_discount_rule_instance :
    (updateCartTotals [] tuesdayNoon).discountAmount = 0 :=
  (c3_monday_discount_rule [] tuesdayNoon).2.2.2.2 (by decide)

/-- claim C4: with itemCount the sum of line quantities, shipping is 0 above
15 items, 25 plus 10% of the discounted total for 1..15 items, and 0 for the
empty cart; the grand total is the discounted total plus shipping. -/
theorem c4_shipping_rule (cart : List Product) (now : JsDate) :
    ((updateCartTotals cart now).shippingCost =
      if 15 < itemCount cart then 0
      else if 0 < itemCount cart
        then 25 + (1 / 10) * (updateCartTotals cart now).totalAfterDiscount
      else 0)
    ∧ (updateCartTotals cart now).finalTotal =
        (updateCartTotals cart now).totalAfterDiscount +
          (updateCartTotals cart now).shippingCost
    ∧ (itemCount cart = 15 → (updateCartTotals cart now).shippingCost =
        25 + (1 / 10) * (updateCartTotals cart now).totalAfterDiscount)
    ∧ (itemCount cart = 16 → (updateCartTotals cart now).shippingCost = 0)
    ∧ (itemCount cart = 0 → (updateCartTotals cart now).shippingCost = 0) := by
  refine ⟨rfl, rfl, ?_, ?_, ?_⟩ <;> intro h <;>
    rw [updateCartTotals_shippingCost, h] <;> norm_num

/-- witness for C4 on a 15-item cart. -/
theorem c4_shipping_rule_instance :
    (updateCartTotals cart15 tuesdayNoon).shippingCost =
      25 + (1 / 10) * (updateCartTotals cart15 tuesdayNoon).totalAfterDiscount :=
  (c4_shipping_rule cart15 tuesdayNoon).2.2.1
    (by norm_num [itemCount, cart15, withAmount, amt])

/-- claim C7: invoice eligibility is the predicate grandTotal at most 800,
evaluated on the displayed 2-decimal-rounded grand total; a rounded total of
exactly 800 is eligible, 800.01 is not. -/
theorem c7_invoice_eligibility (cart : List Product) (now : JsDate) :
    invoiceOptionAllowed cart now =
      decide (toFixed2 (updateCartTotals cart now).finalTotal ≤ 800)
    ∧ isInvoicePaymentAllowed 800 = true
    ∧ isInvoicePaymentAllowed (80001 / 100) = false
    ∧ (toFixed2 (updateCartTotals cart now).finalTotal = 800 →
        invoiceOptionAllowed cart now = true)
    ∧ (toFixed2 (updateCartTotals cart now).finalTotal = 80001 / 100 →
        invoiceOptionAllowed cart now = false) := by
  refine ⟨rfl, by norm_num [isInvoicePaymentAllowed],
    by norm_num [isInvoicePaymentAllowed], ?_, ?_⟩
  · intro h
    unfold invoiceOptionAllowed isInvoicePaymentAllowed
    rw [h]
    norm_num
  · intro h
    unfold invoiceOptionAllowed isInvoicePaymentAllowed
    rw [h]
    norm_num

/-- witness for C7: the 20-item cart totalling exactly 800.00 may pay by
invoice. -/
theorem c7_invoice_eligibility_instance :
    invoiceOptionAllowed cart800 tuesdayNoon = true :=
  (c7_invoice_eligibility cart800 tuesdayNoon).2.2.2.1 (by
    have h : (updateCartTotals cart800 tuesdayNoon).finalTotal = 800 := by
      simp [updateCartTotals, updateCartTotalsClock, cartLoop, cart800, withAmount, amt,
        categoryCount, itemCount, calculateProductPrice, applyBulkDiscount, tuesdayNoon,
        riceCookie, mochi, icedPeachTea, brokenRiceWithPork]
      norm_num
    rw [h]
    norm_num [toFixed2, round_eq])

/-- writing an amount keeps ids, so a search by id finds the written version
of whatever it found before. -/
lemma find?_setAmount (ps : List Product) (pid pid' : Int) (f : Option ℚ → Option ℚ) :
    (setAmount ps pid f).find? (fun p => p.id == pid') =
      (ps.find? (fun p => p.id == pid')).map
        (fun p => if p.id = pid then { p with amount := f p.amount } else p) := by
  induction ps with
  | nil => rfl
  | cons p rest ih =>
    have hid : (if p.id = pid then { p with amount := f p.amount } else p).id = p.id := by
      by_cases h : p.id = pid <;> simp [h]
    show ((if p.id = pid then { p with amount := f p.amount } else p) ::
        setAmount rest pid f).find? (fun p => p.id == pid') = _
    by_cases hp : p.id = pid'
    · rw [List.find?_cons_of_pos _ (by simp only [hid]; simp [hp]),
        List.find?_cons_of_pos _ (by simp [hp])]
      rfl
    · rw [List.find?_cons_of_neg _ (by simp only [hid]; simp [hp]),
        List.find?_cons_of_neg _ (by simp [hp]), ih]

/-- effect of a write on the written id. -/
lemma amountOf_setAmount_self (ps : List Product) (pid : Int) (f : Option ℚ → Option ℚ) :
    amountOf (setAmount ps pid f) pid =
      (ps.find? (fun p => p.id == pid)).bind (fun p => f p.amount) := by
  unfold amountOf
  rw [find?_setAmount]
  cases hf : ps.find? (fun p => p.id == pid) with
  | none => rfl
  | some p =>
    have hp : p.id = pid := by simpa using List.find?_some hf
    simp [hp]

/-- a write at one id leaves every other id untouched. -/
lemma amountOf_setAmount_ne (ps : List Product) (pid pid' : Int) (f : Option ℚ → Option ℚ)
    (h : pid' ≠ pid) :
    amountOf (setAmount ps pid f) pid' = amountOf ps pid' := by
  unfold amountOf
  rw [find?_setAmount]
  cases hf : ps.find? (fun p => p.id == pid') with
  | none => rfl
  | some p =>
    have hp : p.id = pid' := by simpa using List.find?_some hf
    have hne : ¬ p.id = pid := by rw [hp]; exact h
    simp [hne]

/-- effect of a write on an id whose amount is known. -/
lemma amountOf_setAmount_self_of (ps : List Product) (pid : Int) (f : Option ℚ → Option ℚ)
    (q1 : ℚ) (h : amountOf ps pid = some q1) :
    amountOf (setAmount ps pid f) pid = f (some q1) := by
  rw [amountOf_setAmount_self]
  unfold amountOf at h
  cases hf : ps.find? (fun p => p.id == pid) with
  | none => rw [hf] at h; cases h
  | some p =>
    rw [hf] at h
    have h' : p.amount = some q1 := h
    show f p.amount = f (some q1)
    rw [h']

/-- effect of a write on the found id, found version. -/
lemma amountOf_setAmount_found (ps : List Product) (pid : Int) (f : Option ℚ → Option ℚ)
    (p0 : Product) (h : ps.find? (fun p => p.id == pid) = some p0) :
    amountOf (setAmount ps pid f) pid = f p0.amount := by
  rw [amountOf_setAmount_self, h]
  rfl

/-- a successful index read is a member. -/
lemma mem_of_getElemOpt {α : Type} {l : List α} {i : Nat} {a : α} (h : l[i]? = some a) :
    a ∈ l := by
  obtain ⟨hlt, rfl⟩ := List.getElem?_eq_some.mp h
  exact List.getElem_mem hlt

/-- integrality is preserved by addition. -/
lemma den_one_add (a b : ℚ) (ha : a.den = 1) (hb : b.den = 1) : (a + b).den = 1 := by
  rw [Rat.den_eq_one_iff] at ha hb
  rw [← ha, ← hb, ← Int.cast_add, Rat.den_intCast]

/-- integrality is preserved by subtracting one. -/
lemma den_one_sub_one (a : ℚ) (ha : a.den = 1) : (a - 1).den = 1 := by
  rw [Rat.den_eq_one_iff] at ha
  rw [← ha, show (1 : ℚ) = ((1 : ℤ) : ℚ) by norm_num, ← Int.cast_sub, Rat.den_intCast]

/-- a positive integral rational is at least one. -/
lemma ge_one_of_pos_int (a : ℚ) (ha : a.den = 1) (h : 0 < a) : 1 ≤ a := by
  rw [Rat.den_eq_one_iff] at ha
  rw [← ha] at h ⊢
  have h' : 0 < a.num := by exact_mod_cast h
  have h'' : 1 ≤ a.num := by omega
  exact_mod_cast h''

/-- an add is a no-op when the quantity is nonpositive or the id is not in
the catalog (the two early returns of `addProductToCart`). -/
lemma addProductToCart_noop (s : AppState) (pid : Int) (q : ℚ)
    (h : q ≤ 0 ∨ s.products.find? (fun p => p.id == pid) = none) :
    addProductToCart s pid q = s := by
  unfold addProductToCart
  cases hf : s.products.find? (fun p => p.id == pid) with
  | none => rfl
  | some p0 =>
    rcases h with hq | hn
    · show (if q ≤ 0 then s else _) = s
      rw [if_pos hq]
    · rw [hf] at hn
      cases hn

/-- the two effective branches of `addProductToCart` when the product is
found and the quantity is positive. -/
lemma addProductToCart_found (s : AppState) (pid : Int) (q : ℚ) (p0 : Product)
    (hp0 : s.products.find? (fun p => p.id == pid) = some p0) (hq : ¬ q ≤ 0) :
    addProductToCart s pid q =
      if pid ∈ s.cart then
        { s with products := setAmount s.products pid (fun a => some (a.getD 0 + q)) }
      else
        { products := setAmount s.products pid (fun _ => some q),
          cart := s.cart ++ [pid] } := by
  unfold addProductToCart
  rw [hp0]
  show (if q ≤ 0 then s else _) = _
  rw [if_neg hq]

/-- writing an amount does not change the catalog-declared fields. -/
lemma map_coreFields_setAmount (ps : List Product) (pid : Int) (f : Option ℚ → Option ℚ) :
    (setAmount ps pid f).map coreFields = ps.map coreFields := by
  unfold setAmount
  rw [List.map_map]
  have hfun : (coreFields ∘ fun p =>
      if p.id = pid then { p with amount := f p.amount } else p) = coreFields := by
    funext p
    by_cases h : p.id = pid <;> simp [Function.comp, h, coreFields]
  rw [hfun]

/-- no single operation changes the catalog-declared fields. -/
lemma applyOp_core (s : AppState) (op : CartOp) :
    (applyOp s op).products.map coreFields = s.products.map coreFields := by
  cases op with
  | add pid q =>
    show (addProductToCart s pid q).products.map coreFields = _
    by_cases hq : q ≤ 0
    · rw [addProductToCart_noop s pid q (Or.inl hq)]
    · cases hf : s.products.find? (fun p => p.id == pid) with
      | none => rw [addProductToCart_noop s pid q (Or.inr hf)]
      | some p0 =>
        rw [addProductToCart_found s pid q p0 hf hq]
        by_cases hc : pid ∈ s.cart
        · rw [if_pos hc]
          dsimp only
          exact map_coreFields_setAmount s.products pid _
        · rw [if_neg hc]
          dsimp only
          exact map_coreFields_setAmount s.products pid _
  | inc r =>
    show (increaseProductFromCart s r).products.map coreFields = _
    unfold increaseProductFromCart
    cases hg : s.cart[r]? with
    | none => rfl
    | some pid =>
      dsimp only
      exact map_coreFields_setAmount s.products pid _
  | dec r =>
    show (decreaseProductFromCart s r).products.map coreFields = _
    unfold decreaseProductFromCart
    cases hg : s.cart[r]? with
    | none => rfl
    | some pid =>
      dsimp only
      by_cases h0 : 0 < (amountOf s.products pid).getD 0
      · rw [if_pos h0]
        dsimp only
        exact map_coreFields_setAmount s.products pid _
      · rw [if_neg h0]
  | del r => rfl

/-- no operation sequence changes the catalog-declared fields. -/
lemma runOps_core (s : AppState) (ops : List CartOp) :
    (runOps s ops).products.map coreFields = s.products.map coreFields := by
  induction ops generalizing s with
  | nil => rfl
  | cons op rest ih =>
    show (runOps (applyOp s op) rest).products.map coreFields = _
    rw [ih (applyOp s op), applyOp_core]

/-- counterexample to C5: the first add writes an `amount` property onto the
catalog record with id 11 (the cart aliases the catalog objects), so the
catalog's product array is not left intact by cart operations. -/
theorem c5_catalog_record_mutated :
    amountOf (addProductToCart initState 11 3).products 11 = some 3
    ∧ amountOf initState.products 11 = none
    ∧ (addProductToCart initState 11 3).products ≠ initState.products := by
  have h1 : amountOf (addProductToCart initState 11 3).products 11 = some 3 := by
    norm_num [addProductToCart, initState, products, amountOf, setAmount, List.find?,
      riceCookie, mochi, stickyRiceWithMango, vietnameseSpringRoll, vietnameseFriedRice,
      vietnameseNoodleSoupWithBeef, riceNoodlesWithFriedSpringRolls, brokenRiceWithPork,
      icedPeachTea, vietnameseDripCoffee, strawberryLemonade, mojito]
  have h2 : amountOf initState.products 11 = none := by
    norm_num [initState, products, amountOf, List.find?, riceCookie]
  refine ⟨h1, h2, fun h => ?_⟩
  rw [h, h2] at h1
  cases h1

/-- claim C5 amended: no cart operation (nor any sequence of them) changes
any catalog product's id, name, unit price, category or image metadata; the
operations do, however, write the cart quantity into an `amount` property on
the shared catalog records (see the counterexample). -/
theorem c5_core_fields_preserved :
    (∀ (s : AppState) (op : CartOp),
      (applyOp s op).products.map coreFields = s.products.map coreFields)
    ∧ ∀ (s : AppState) (ops : List CartOp),
      (runOps s ops).products.map coreFields = s.products.map coreFields :=
  ⟨applyOp_core, runOps_core⟩

/-- counterexample to C6: add one unit of product 11 and decrement the line
at index 0 once; the line is still in the cart and its quantity is 0, so a
quantity of 0 is observable (the decrement guard only blocks at `amount`
already 0, it does not remove the line or stop at 1). -/
theorem c6_zero_quantity_reachable :
    11 ∈ (runOps initState [CartOp.add 11 1, CartOp.dec 0]).cart
    ∧ amountOf (runOps initState [CartOp.add 11 1, CartOp.dec 0]).products 11 = some 0 := by
  constructor <;>
    norm_num [runOps, applyOp, addProductToCart, decreaseProductFromCart, initState,
      products, amountOf, setAmount, List.find?, riceCookie, mochi, stickyRiceWithMango,
      vietnameseSpringRoll, vietnameseFriedRice, vietnameseNoodleSoupWithBeef,
      riceNoodlesWithFriedSpringRolls, brokenRiceWithPork, icedPeachTea,
      vietnameseDripCoffee, strawberryLemonade, mojito]

/-- an add with an integral quantity preserves the cart invariant. -/
lemma cartInv_add (s : AppState) (pid : Int) (q : ℚ) (hq : q.den = 1)
    (hs : CartInv s) : CartInv (addProductToCart s pid q) := by
  by_cases hq0 : q ≤ 0
  · rw [addProductToCart_noop s pid q (Or.inl hq0)]
    exact hs
  · cases hf : s.products.find? (fun p => p.id == pid) with
    | none =>
      rw [addProductToCart_noop s pid q (Or.inr hf)]
      exact hs
    | some p0 =>
      have hqpos : 0 < q := not_le.mp hq0
      rw [addProductToCart_found s pid q p0 hf hq0]
      by_cases hc : pid ∈ s.cart
      · rw [if_pos hc]
        intro pid' hpid'
        by_cases he : pid' = pid
        · subst he
          obtain ⟨q1, hq1, hq1pos, hq1den⟩ := hs pid' hpid'
          refine ⟨q1 + q, ?_, by linarith, den_one_add q1 q hq1den hq⟩
          rw [amountOf_setAmount_self_of _ _ _ _ hq1]
          rfl
        · obtain ⟨q1, hq1, hq1pos, hq1den⟩ := hs pid' hpid'
          exact ⟨q1, by rw [amountOf_setAmount_ne _ _ _ _ he]; exact hq1, hq1pos, hq1den⟩
      · rw [if_neg hc]
        intro pid' hpid'
        rcases List.mem_append.mp hpid' with hold | hnew
        · have he : pid' ≠ pid := fun h => hc (h ▸ hold)
          obtain ⟨q1, hq1, hq1pos, hq1den⟩ := hs pid' hold
          exact ⟨q1, by rw [amountOf_setAmount_ne _ _ _ _ he]; exact hq1, hq1pos, hq1den⟩
        · have he : pid' = pid := by simpa using hnew
          subst he
          refine ⟨q, ?_, le_of_lt hqpos, hq⟩
          rw [amountOf_setAmount_found _ _ _ _ hf]

/-- a cart increment preserves the cart invariant. -/
lemma cartInv_inc (s : AppState) (r : Nat) (hs : CartInv s) :
    CartInv (increaseProductFromCart s r) := by
  unfold increaseProductFromCart
  cases hg : s.cart[r]? with
  | none => exact hs
  | some pid1 =>
    intro pid' hpid'
    by_cases he : pid' = pid1
    · subst he
      obtain ⟨q1, hq1, hq1pos, hq1den⟩ := hs pid' (mem_of_getElemOpt hg)
      refine ⟨q1 + 1, ?_, by linarith, den_one_add q1 1 hq1den Rat.den_one⟩
      rw [amountOf_setAmount_self_of _ _ _ _ hq1]
      rfl
    · obtain ⟨q1, hq1, hq1pos, hq1den⟩ := hs pid' hpid'
      exact ⟨q1, by rw [amountOf_setAmount_ne _ _ _ _ he]; exact hq1, hq1pos, hq1den⟩

/-- a cart decrement preserves the cart invariant (here the integrality of
the quantity matters: a positive integral amount is at least 1, so one below
it is still nonnegative). -/
lemma cartInv_dec (s : AppState) (r : Nat) (hs : CartInv s) :
    CartInv (decreaseProductFromCart s r) := by
  unfold decreaseProductFromCart
  cases hg : s.cart[r]? with
  | none => exact hs
  | some pid1 =>
    dsimp only
    by_cases h0 : 0 < (amountOf s.products pid1).getD 0
    · rw [if_pos h0]
      intro pid' hpid'
      by_cases he : pid' = pid1
      · subst he
        obtain ⟨q1, hq1, hq1pos, hq1den⟩ := hs pid' (mem_of_getElemOpt hg)
        have hq1pos' : 0 < q1 := by rw [hq1] at h0; simpa using h0
        have h1le : 1 ≤ q1 := ge_one_of_pos_int q1 hq1den hq1pos'
        refine ⟨q1 - 1, ?_, by linarith, den_one_sub_one q1 hq1den⟩
        rw [amountOf_setAmount_self_of _ _ _ _ hq1]
        rfl
      · obtain ⟨q1, hq1, hq1pos, hq1den⟩ := hs pid' hpid'
        exact ⟨q1, by rw [amountOf_setAmount_ne _ _ _ _ he]; exact hq1, hq1pos, hq1den⟩
    · rw [if_neg h0]
      exact hs

/-- a line deletion preserves the cart invariant. -/
lemma cartInv_del (s : AppState) (r : Nat) (hs : CartInv s) :
    CartInv (handleDeleteCartItem s r) := by
  intro pid hpid
  exact hs pid (List.eraseIdx_subset _ _ hpid)

/-- any run of operations whose adds carry integral quantities preserves the
cart invariant. -/
lemma cartInv_runOps (s : AppState) (ops : List CartOp) (hs : CartInv s)
    (hops : ∀ op ∈ ops, opIntegral op = true) : CartInv (runOps s ops) := by
  induction ops generalizing s with
  | nil => exact hs
  | cons op rest ih =>
    show CartInv (runOps (applyOp s op) rest)
    refine ih (applyOp s op) ?_ (fun o ho => hops o (List.mem_cons_of_mem _ ho))
    cases op with
    | add pid q =>
      have hden : q.den = 1 := by
        have h := hops _ (List.mem_cons_self _ _)
        simpa [opIntegral] using h
      exact cartInv_add s pid q hden hs
    | inc r => exact cartInv_inc s r hs
    | dec r => exact cartInv_dec s r hs
    | del r => exact cartInv_del s r hs

/-- claim C6 amended: after any sequence of operations whose adds carry
integral quantities, every id in the cart names a record whose amount is a
nonnegative integer — but 0 is reachable (see the counterexample), so the
invariant is quantity at least 0, not at least 1. -/
theorem c6_quantity_nonneg (ops : List CartOp)
    (hops : ∀ op ∈ ops, opIntegral op = true) :
    ∀ pid ∈ (runOps initState ops).cart,
      ∃ q : ℚ, amountOf (runOps initState ops).products pid = some q
        ∧ 0 ≤ q ∧ q.den = 1 :=
  cartInv_runOps initState ops (by intro pid h; simp [initState] at h) hops

/-- witness for C6 on the two-operation run that adds two rice cookies. -/
theorem c6_quantity_nonneg_instance :
    ∃ q : ℚ, amountOf (runOps initState [CartOp.add 11 2]).products 11 = some q
      ∧ 0 ≤ q ∧ q.den = 1 :=
  c6_quantity_nonneg [CartOp.add 11 2]
    (by intro op hop
        simp only [List.mem_singleton] at hop
        subst hop
        simp [opIntegral])
    11
    (by norm_num [runOps, applyOp, addProductToCart, initState, products, List.find?,
      riceCookie])

/-- an add keeps the cart free of duplicate ids. -/
lemma cart_nodup_add (s : AppState) (pid : Int) (q : ℚ) (h : s.cart.Nodup) :
    (addProductToCart s pid q).cart.Nodup := by
  by_cases hq : q ≤ 0
  · rw [addProductToCart_noop s pid q (Or.inl hq)]
    exact h
  · cases hf : s.products.find? (fun p => p.id == pid) with
    | none =>
      rw [addProductToCart_noop s pid q (Or.inr hf)]
      exact h
    | some p0 =>
      rw [addProductToCart_found s pid q p0 hf hq]
      by_cases hc : pid ∈ s.cart
      · rw [if_pos hc]
        exact h
      · rw [if_neg hc]
        show (s.cart ++ [pid]).Nodup
        simp [List.nodup_append, h, hc]

/-- every operation keeps the cart free of duplicate ids. -/
lemma cart_nodup_applyOp (s : AppState) (op : CartOp) (h : s.cart.Nodup) :
    (applyOp s op).cart.Nodup := by
  cases op with
  | add pid q => exact cart_nodup_add s pid q h
  | inc r =>
    show (increaseProductFromCart s r).cart.Nodup
    unfold increaseProductFromCart
    cases hg : s.cart[r]? with
    | none => exact h
    | some pid => exact h
  | dec r =>
    show (decreaseProductFromCart s r).cart.Nodup
    unfold decreaseProductFromCart
    cases hg : s.cart[r]? with
    | none => exact h
    | some pid =>
      dsimp only
      by_cases h0 : 0 < (amountOf s.products pid).getD 0
      · rw [if_pos h0]
        exact h
      · rw [if_neg h0]
        exact h
  | del r => exact h.eraseIdx r

/-- every run of operations keeps the cart free of duplicate ids. -/
lemma cart_nodup_runOps (s : AppState) (ops : List CartOp) (h : s.cart.Nodup) :
    (runOps s ops).cart.Nodup := by
  induction ops generalizing s with
  | nil => exact h
  | cons op rest ih => exact ih (applyOp s op) (cart_nodup_applyOp s op h)

/-- claim C8: adding 3 then 2 of product 11 yields the single cart line
`[11]` with quantity 5; a positive-quantity add of a catalog product either
bumps the existing line (cart unchanged) or appends the id at the end; and
any sequence of adds leaves the cart without duplicate ids, in first-added
order. -/
theorem c8_add_merges_by_product :
    ((runOps initState [CartOp.add 11 3, CartOp.add 11 2]).cart = [11]
      ∧ amountOf (runOps initState [CartOp.add 11 3, CartOp.add 11 2]).products 11 = some 5)
    ∧ (∀ (s : AppState) (pid : Int) (q : ℚ), 0 < q →
        (s.products.find? (fun p => p.id == pid)).isSome = true →
        (if pid ∈ s.cart
          then (addProductToCart s pid q).cart = s.cart
            ∧ amountOf (addProductToCart s pid q).products pid =
              some ((amountOf s.products pid).getD 0 + q)
          else (addProductToCart s pid q).cart = s.cart ++ [pid]
            ∧ amountOf (addProductToCart s pid q).products pid = some q))
    ∧ ∀ adds : List (Int × ℚ),
        (runOps initState (adds.map (fun a => CartOp.add a.1 a.2))).cart.Nodup := by
  refine ⟨?_, ?_, ?_⟩
  · constructor <;>
      norm_num [runOps, applyOp, addProductToCart, initState, products, amountOf,
        setAmount, List.find?, riceCookie, mochi, stickyRiceWithMango,
        vietnameseSpringRoll, vietnameseFriedRice, vietnameseNoodleSoupWithBeef,
        riceNoodlesWithFriedSpringRolls, brokenRiceWithPork, icedPeachTea,
        vietnameseDripCoffee, strawberryLemonade, mojito]
  · intro s pid q hq hf
    obtain ⟨p0, hp0⟩ := Option.isSome_iff_exists.mp hf
    have hq0 : ¬ q ≤ 0 := not_le.mpr hq
    rw [addProductToCart_found s pid q p0 hp0 hq0]
    by_cases hc : pid ∈ s.cart
    · rw [if_pos hc, if_pos hc]
      refine ⟨rfl, ?_⟩
      dsimp only
      rw [amountOf_setAmount_found _ _ _ _ hp0]
      unfold amountOf
      rw [hp0]
      rfl
    · rw [if_neg hc, if_neg hc]
      refine ⟨rfl, ?_⟩
      dsimp only
      rw [amountOf_setAmount_found _ _ _ _ hp0]
  · intro adds
    exact cart_nodup_runOps initState _ (by simp [initState])

/-- witness for C8: a fresh add of three units of product 12 appends the id
at the end of the (empty) cart and records quantity 3. -/
theorem c8_add_merges_by_product_instance :
    (if (12 : Int) ∈ initState.cart
      then (addProductToCart initState 12 3).cart = initState.cart
        ∧ amountOf (addProductToCart initState 12 3).products 12 =
          some ((amountOf initState.products 12).getD 0 + 3)
      else (addProductToCart initState 12 3).cart = initState.cart ++ [12]
        ∧ amountOf (addProductToCart initState 12 3).products 12 = some 3) :=
  c8_add_merges_by_product.2.1 initState 12 3 (by norm_num) (by decide)

/-- counterexample to C9: a positive non-integer quantity is not rejected by
`addProductToCart` (the guard only checks `amount <= 0`), so adding 5/2 of
product 11 changes the cart. -/
theorem c9_noninteger_quantity_accepted :
    (addProductToCart initState 11 (5 / 2)).cart = [11]
    ∧ addProductToCart initState 11 (5 / 2) ≠ initState := by
  have h : (addProductToCart initState 11 (5 / 2)).cart = [11] := by
    norm_num [addProductToCart, initState, products, List.find?, riceCookie]
  refine ⟨h, fun he => ?_⟩
  rw [he] at h
  simp [initState] at h

/-- claim C9 amended: `addProductToCart` is a no-op when the quantity is
nonpositive or the product id is not in the catalog; non-integrality alone
is not rejected (see the counterexample). -/
theorem c9_add_noop_conditions (s : AppState) (pid : Int) (q : ℚ)
    (h : q ≤ 0 ∨ s.products.find? (fun p => p.id == pid) = none) :
    addProductToCart s pid q = s :=
  addProductToCart_noop s pid q h

/-- witness for C9: adding zero units changes nothing. -/
theorem c9_add_noop_conditions_instance :
    addProductToCart initState 11 0 = initState :=
  c9_add_noop_conditions initState 11 0 (Or.inl (by norm_num))

/-- counterexample to C10: the pricing routine reads the clock once per cart
line and once more for the Monday check; two runs over the same cart whose
clocks agree at the moment the computation starts (reading 0) still differ
when the minute ticks from Monday 09:59 to 10:00 between the two reads, so
the totals are not a function of cart and a single time value. -/
theorem c10_implicit_clock_dependence :
    clockStill 0 = clockTicks 0
    ∧ updateCartTotalsClock oneLineCart clockStill ≠
        updateCartTotalsClock oneLineCart clockTicks := by
  refine ⟨rfl, fun h => ?_⟩
  have h1 : (updateCartTotalsClock oneLineCart clockStill).discountAmount = 29 / 10 := by
    simp [updateCartTotalsClock, cartLoop, oneLineCart, withAmount, amt, categoryCount,
      calculateProductPrice, applyBulkDiscount, clockStill, itemCount, riceCookie]
    norm_num
  have h2 : (updateCartTotalsClock oneLineCart clockTicks).discountAmount = 0 := by
    simp [updateCartTotalsClock, cartLoop, oneLineCart, withAmount, amt, categoryCount,
      calculateProductPrice, applyBulkDiscount, clockTicks, itemCount, riceCookie]
  rw [h, h2] at h1
  norm_num at h1

/-- the pricing loop depends only on the clock readings it makes. -/
lemma cartLoop_congr (cats : String → ℚ) (clock clock' : Nat → JsDate) :
    ∀ (l : List Product) (i : Nat),
      (∀ j, i ≤ j → j < i + l.length → clock j = clock' j) →
      cartLoop clock cats l i = cartLoop clock' cats l i := by
  intro l
  induction l with
  | nil => intro i h; rfl
  | cons p rest ih =>
    intro i h
    simp only [cartLoop]
    rw [h i (le_refl i) (by rw [List.length_cons]; omega),
      ih (i + 1) (fun j hj1 hj2 => h j (by omega) (by rw [List.length_cons]; omega))]

/-- claim C10 amended: the totals computation is a deterministic function of
the cart lines and the clock readings it performs (one per line plus one for
the Monday rule) — two runs whose clocks agree on those readings give the
same `PricingResult`; it is not a function of a single injected time value
(see the counterexample). -/
theorem c10_deterministic_in_clock_reads (cart : List Product)
    (clock clock' : Nat → JsDate)
    (h : ∀ i, i ≤ cart.length → clock i = clock' i) :
    updateCartTotalsClock cart clock = updateCartTotalsClock cart clock' := by
  unfold updateCartTotalsClock
  rw [cartLoop_congr (categoryCount cart) clock clock' cart 0
      (fun j hj1 hj2 => h j (by omega)),
    h cart.length (le_refl cart.length)]

/-- witness for C10: on the empty cart two clocks that agree at reading 0
give the same result even though they differ later. -/
theorem c10_deterministic_in_clock_reads_instance :
    updateCartTotalsClock [] clockA = updateCartTotalsClock [] clockB :=
  c10_deterministic_in_clock_reads [] clockA clockB (by
    intro i hi
    have h0 : i = 0 := by simpa using hi
    subst h0
    rfl)
